import Mathlib

/-!
# Reservation/Car Availability Coordinator — verification development

Shallow embedding of the reservation lifecycle and car-availability logic of
the car-dealership backend (`app/services/reservation_service.py` together
with `app/utils/helpers.py`).  Dates are modelled as integers (only order is
ever used by the code), prices as integers (only the sign is ever tested),
and the SQLAlchemy session as an explicit record of table contents threaded
through each operation.  Each operation has a single commit point; commit
success is an explicit boolean parameter, and a failed commit returns an
error without producing a state (mirroring `db.rollback()`).

`HTTPException(status_code, detail)` is modelled by `HTTPError`; the distinct
French detail strings of the source are mapped one-to-one onto short ASCII
tags so that the spec's error taxonomy (NotFound, InvalidState,
ValidationError, ConflictError, InvalidTransition, PermissionError,
PersistenceError) stays distinguishable:
  * 404 "car_not_found"             — "Voiture non trouvee"        (NotFound)
  * 400 "car_unavailable"           — "Cette voiture n est pas disponible" (InvalidState)
  * 400 "invalid_dates"             — "Dates de reservation invalides" (ValidationError)
  * 400 "period_conflict"           — "La voiture est deja reservee pour cette periode" (ConflictError)
  * 400 "invalid_price"             — "Le prix final doit etre superieur a 0" (ValidationError)
  * 404 "reservation_not_found"     — "Reservation non trouvee"    (NotFound)
  * 403 "status_update_forbidden"   — "Seuls les vendeurs peuvent modifier ..." (PermissionError)
  * 400 "invalid_transition"        — "Transition de statut invalide ..." (InvalidTransition)
  * 403 "update_forbidden"          — "Vous ne pouvez modifier que vos propres reservations" (PermissionError)
  * 400 "only_pending_updatable"    — "Vous ne pouvez modifier que les reservations en attente"
  * 403 "cancel_forbidden"          — "Vous ne pouvez annuler que vos propres reservations" (PermissionError)
  * 400 "cannot_cancel"             — "Cette reservation ne peut pas etre annulee" (InvalidState)
  * 500 "commit_failed"             — commit exception branch      (PersistenceError)
  * 500 "attribute_error_none_car"  — unhandled `None.disponibilite` dereference
-/

namespace CarResa

/-- Car row (`models/database.py`, class `Car`); only the fields the
coordinator reads or writes are kept.  `disponibilite` ranges over the
strings `"disponible" | "loue" | "vendu"` in the database. -/
structure Car where
  id : Nat
  disponibilite : String
  is_active : Bool
  deriving Repr, DecidableEq

/-- Reservation row (`models/database.py`, class `Reservation`).
`statut` ranges over `"en_attente" | "confirmee" | "annulee" | "terminee"`,
`type_transaction` over `"vente" | "location"`; `date_fin` is nullable
(null for sales). -/
structure Reservation where
  id : Nat
  car_id : Nat
  user_id : Nat
  type_transaction : String
  date_debut : Int
  date_fin : Option Int
  prix_final : Int
  statut : String
  notes : Option String
  deriving Repr, DecidableEq

/-- The two tables the coordinator touches. -/
structure DB where
  cars : List Car
  reservations : List Reservation
  deriving Repr, DecidableEq

/-- `fastapi.HTTPException` as raised by the service layer. -/
structure HTTPError where
  status_code : Nat
  detail : String
  deriving Repr, DecidableEq

def carNotFound : HTTPError := ⟨404, "car_not_found"⟩
def carUnavailable : HTTPError := ⟨400, "car_unavailable"⟩
def invalidDates : HTTPError := ⟨400, "invalid_dates"⟩
def periodConflict : HTTPError := ⟨400, "period_conflict"⟩
def invalidPrice : HTTPError := ⟨400, "invalid_price"⟩
def resNotFound : HTTPError := ⟨404, "reservation_not_found"⟩
def statusForbidden : HTTPError := ⟨403, "status_update_forbidden"⟩
def invalidTransition : HTTPError := ⟨400, "invalid_transition"⟩
def updateForbidden : HTTPError := ⟨403, "update_forbidden"⟩
def onlyPending : HTTPError := ⟨400, "only_pending_updatable"⟩
def cancelForbidden : HTTPError := ⟨403, "cancel_forbidden"⟩
def cannotCancel : HTTPError := ⟨400, "cannot_cancel"⟩
def commitFailed : HTTPError := ⟨500, "commit_failed"⟩
def noneCarCrash : HTTPError := ⟨500, "attribute_error_none_car"⟩

/-- `schema.py` `ReservationCreate` — the request body of `create`.
`type_transaction` is an enum (`vente`/`location`) at the HTTP layer. -/
structure ReservationCreate where
  car_id : Nat
  type_transaction : String
  date_debut : Int
  date_fin : Option Int
  prix_final : Int
  notes : Option String
  deriving Repr, DecidableEq

/-- `schema.py` `ReservationUpdate` — every field optional.  Pydantic's
`exclude_unset` distinguishes an absent field (`none`) from a field
explicitly sent as null (`some none`) from a field set to a value
(`some (some v)`); an explicitly-null field is skipped by the assignment
loop but still counts as touched for date re-validation. -/
structure ReservationUpdate where
  type_transaction : Option (Option String) := none
  date_debut : Option (Option Int) := none
  date_fin : Option (Option Int) := none
  prix_final : Option (Option Int) := none
  statut : Option (Option String) := none
  notes : Option (Option String) := none
  deriving Repr, DecidableEq

/-- `db.query(Car).filter(Car.id == car_id, Car.is_active == True).first()` -/
def findActiveCar (db : DB) (cid : Nat) : Option Car :=
  db.cars.find? fun c => c.id == cid && c.is_active

/-- `db.query(Car).filter(Car.id == car_id).first()` (no `is_active` filter,
used by `cancel_reservation` and by the `reservation.car` relationship). -/
def findCarAny (db : DB) (cid : Nat) : Option Car :=
  db.cars.find? fun c => c.id == cid

/-- `db.query(Reservation).filter(Reservation.id == reservation_id).first()` -/
def findReservation (db : DB) (rid : Nat) : Option Reservation :=
  db.reservations.find? fun r => r.id == rid

/-- In-place mutation of the (unique) car row with the given id. -/
def setCarAvail (cars : List Car) (cid : Nat) (avail : String) : List Car :=
  cars.map fun c => if c.id == cid then { c with disponibilite := avail } else c

/-- In-place mutation of the (unique) reservation row with the given id. -/
def setRes (rs : List Reservation) (rid : Nat) (r2 : Reservation) : List Reservation :=
  rs.map fun r => if r.id == rid then r2 else r

/-- Auto-increment primary key for a freshly inserted reservation row. -/
def freshId (rs : List Reservation) : Nat :=
  (rs.map Reservation.id).foldr max 0 + 1

/-- `utils/helpers.py`, `validate_reservation_dates`: start date must not be
in the past; for rentals the end date is mandatory and must be strictly
after the start date.  `now` is `datetime.now()` at call time. -/
def validate_reservation_dates (date_debut : Int) (date_fin : Option Int)
    (type_transaction : String) (now : Int) : Bool :=
  if date_debut < now then false
  else if type_transaction == "location" then
    match date_fin with
    | none => false
    | some fin => decide (date_debut < fin)
  else true

/-- One existing reservation row matched by the overlap query of
`create_reservation` (same car, rental, status pending/confirmed, and
`existing.date_debut < new.date_fin AND existing.date_fin > new.date_debut`;
a SQL NULL `date_fin` never satisfies the comparison). -/
def rentalConflict (data : ReservationCreate) (r : Reservation) : Bool :=
  r.car_id == data.car_id &&
  r.type_transaction == "location" &&
  (r.statut == "en_attente" || r.statut == "confirmee") &&
  (match data.date_fin with
   | some newFin =>
       decide (r.date_debut < newFin) &&
       (match r.date_fin with
        | some exFin => decide (exFin > data.date_debut)
        | none => false)
   | none => false)

/-- The whole guard of lines 54–69: the conflict query only runs for rentals
with a (truthy) end date, and fires when its count is positive. -/
def hasRentalConflict (db : DB) (data : ReservationCreate) : Bool :=
  data.type_transaction == "location" && data.date_fin.isSome &&
  db.reservations.any (rentalConflict data)

/-- `ReservationService.create_reservation`.  Checks in source order:
car exists and is active (404); car available (400); dates valid (400);
rental overlap (400); price positive (400); then inserts the pending
reservation and flips the car to `vendu`/`loue`, committing both writes
together. -/
def create_reservation (db : DB) (data : ReservationCreate) (user_id : Nat)
    (now : Int) (commitOk : Bool) : Except HTTPError (DB × Reservation) :=
  match findActiveCar db data.car_id with
  | none => .error carNotFound
  | some car =>
    if car.disponibilite ≠ "disponible" then .error carUnavailable
    else if !(validate_reservation_dates data.date_debut data.date_fin
                data.type_transaction now) then .error invalidDates
    else if hasRentalConflict db data then .error periodConflict
    else if data.prix_final ≤ 0 then .error invalidPrice
    else
      let newRes : Reservation :=
        { id := freshId db.reservations
          car_id := data.car_id
          user_id := user_id
          type_transaction := data.type_transaction
          date_debut := data.date_debut
          date_fin := data.date_fin
          prix_final := data.prix_final
          statut := "en_attente"
          notes := data.notes }
      let cars2 :=
        if data.type_transaction == "vente" then
          setCarAvail db.cars data.car_id "vendu"
        else if data.type_transaction == "location" then
          setCarAvail db.cars data.car_id "loue"
        else db.cars
      if commitOk then
        .ok ({ cars := cars2, reservations := db.reservations ++ [newRes] }, newRes)
      else .error commitFailed

/-- The transition table of `update_reservation_status` (a Python dict with
`.get(statut, [])` default). -/
def valid_transitions (statut : String) : List String :=
  if statut == "en_attente" then ["confirmee", "annulee"]
  else if statut == "confirmee" then ["terminee", "annulee"]
  else []

/-- Whether a successful transition resets the car to `disponible`:
any cancellation, or completion of a rental. -/
def resetsCar (new_status : String) (type_transaction : String) : Bool :=
  new_status == "annulee" || (new_status == "terminee" && type_transaction == "location")

/-- `ReservationService.update_reservation_status`.  Only `vendeur` may call
(403); reservation must exist (404); `new_status` must be a permitted
successor (400); then the reservation status is written and, when the
transition cancels or completes a rental, the associated car is reset to
`disponible` (dereferencing `reservation.car`, which crashes with an
unhandled 500 when the relationship is null); both writes share one commit. -/
def update_reservation_status (db : DB) (reservation_id : Nat)
    (new_status : String) (user_role : String) (commitOk : Bool) :
    Except HTTPError (DB × Reservation) :=
  if user_role ≠ "vendeur" then .error statusForbidden
  else match findReservation db reservation_id with
  | none => .error resNotFound
  | some r =>
    if new_status ∉ valid_transitions r.statut then
      .error invalidTransition
    else
      let r2 := { r with statut := new_status }
      if resetsCar new_status r.type_transaction then
        match findCarAny db r.car_id with
        | none => .error noneCarCrash
        | some _ =>
          let db2 : DB := { cars := setCarAvail db.cars r.car_id "disponible",
                            reservations := setRes db.reservations reservation_id r2 }
          if commitOk then .ok (db2, r2) else .error commitFailed
      else
        let db2 : DB := { cars := db.cars,
                          reservations := setRes db.reservations reservation_id r2 }
        if commitOk then .ok (db2, r2) else .error commitFailed

/-- The `for field, value in update_dict.items()` loop of
`update_reservation`: assign every provided non-null field, rejecting a
non-positive provided `prix_final`; an aborted loop leaves the session
uncommitted, so the partial assignments are never persisted. -/
def apply_update_fields (r : Reservation) (u : ReservationUpdate) :
    Except HTTPError Reservation :=
  if (match u.prix_final with | some (some p) => decide (p ≤ 0) | _ => false) then
    .error invalidPrice
  else
    .ok { r with
      type_transaction :=
        (match u.type_transaction with | some (some v) => v | _ => r.type_transaction)
      date_debut := (match u.date_debut with | some (some v) => v | _ => r.date_debut)
      date_fin := (match u.date_fin with | some (some v) => some v | _ => r.date_fin)
      prix_final := (match u.prix_final with | some (some v) => v | _ => r.prix_final)
      statut := (match u.statut with | some (some v) => v | _ => r.statut)
      notes := (match u.notes with | some (some v) => some v | _ => r.notes) }

/-- `any(field in update_dict for field in ["date_debut", "date_fin",
"type_transaction"])` — a field explicitly sent as null is in the dict. -/
def touchesDates (u : ReservationUpdate) : Bool :=
  u.date_debut.isSome || u.date_fin.isSome || u.type_transaction.isSome

/-- `ReservationService.update_reservation`.  Reservation must exist (404);
a client may only touch their own (403) pending (400) reservations; provided
fields are assigned (rejecting non-positive price); if any of the date/type
fields was provided the resulting reservation is re-validated with
`validate_reservation_dates`; no overlap re-check is performed; single
commit of the reservation row only. -/
def update_reservation (db : DB) (reservation_id : Nat) (u : ReservationUpdate)
    (user_id : Nat) (user_role : String) (now : Int) (commitOk : Bool) :
    Except HTTPError (DB × Reservation) :=
  match findReservation db reservation_id with
  | none => .error resNotFound
  | some r =>
    if user_role = "client" ∧ r.user_id ≠ user_id then .error updateForbidden
    else if user_role = "client" ∧ r.statut ≠ "en_attente" then .error onlyPending
    else match apply_update_fields r u with
    | .error e => .error e
    | .ok r2 =>
      if touchesDates u = true ∧
         validate_reservation_dates r2.date_debut r2.date_fin
           r2.type_transaction now = false then .error invalidDates
      else
        let db2 : DB := { cars := db.cars,
                          reservations := setRes db.reservations reservation_id r2 }
        if commitOk then .ok (db2, r2) else .error commitFailed

/-- `ReservationService.cancel_reservation`.  Reservation must exist (404);
a client may only cancel their own (403); terminal reservations cannot be
cancelled (400); then the status is set to `annulee` and, when the car row
still exists (`if car:`), its availability is reset to `disponible`; one
commit. -/
def cancel_reservation (db : DB) (reservation_id : Nat) (user_id : Nat)
    (user_role : String) (commitOk : Bool) : Except HTTPError DB :=
  match findReservation db reservation_id with
  | none => .error resNotFound
  | some r =>
    if user_role = "client" ∧ r.user_id ≠ user_id then .error cancelForbidden
    else if r.statut = "annulee" ∨ r.statut = "terminee" then .error cannotCancel
    else
      let r2 := { r with statut := "annulee" }
      let cars2 :=
        match findCarAny db r.car_id with
        | some _ => setCarAvail db.cars r.car_id "disponible"
        | none => db.cars
      let db2 : DB := { cars := cars2,
                        reservations := setRes db.reservations reservation_id r2 }
      if commitOk then .ok db2 else .error commitFailed

/-! ## Operation sequences

A coordinator operation as invoked through the routers, with every argument
the HTTP layer would supply (`now` is the wall clock at call time,
`commitOk` whether the store accepts the commit).  A failed operation
leaves the persisted state unchanged. -/

inductive Op where
  | create (data : ReservationCreate) (user_id : Nat) (now : Int) (commitOk : Bool)
  | transition (reservation_id : Nat) (new_status : String) (user_role : String)
      (commitOk : Bool)
  | update (reservation_id : Nat) (u : ReservationUpdate) (user_id : Nat)
      (user_role : String) (now : Int) (commitOk : Bool)
  | cancel (reservation_id : Nat) (user_id : Nat) (user_role : String)
      (commitOk : Bool)
  deriving Repr, DecidableEq

/-- Persisted state after one operation (errors roll back, so they leave the
state as it was). -/
def Op.apply (db : DB) : Op → DB
  | .create data uid now ck =>
      match create_reservation db data uid now ck with
      | .ok (db2, _) => db2
      | .error _ => db
  | .transition rid ns role ck =>
      match update_reservation_status db rid ns role ck with
      | .ok (db2, _) => db2
      | .error _ => db
  | .update rid u uid role now ck =>
      match update_reservation db rid u uid role now ck with
      | .ok (db2, _) => db2
      | .error _ => db
  | .cancel rid uid role ck =>
      match cancel_reservation db rid uid role ck with
      | .ok db2 => db2
      | .error _ => db

/-- Persisted state after a sequence of operations. -/
def runOps (db : DB) (ops : List Op) : DB :=
  ops.foldl Op.apply db

/-- The HTTP layer validates `type_transaction` against the `TransactionType`
enum, so only `"vente"`/`"location"` ever reach `create_reservation`. -/
def Op.Wf : Op → Prop
  | .create data _ _ _ =>
      data.type_transaction = "vente" ∨ data.type_transaction = "location"
  | _ => True

instance : DecidablePred Op.Wf := by
  intro op; cases op <;> simp only [Op.Wf] <;> infer_instance

/-- Is this operation an `update_reservation` call? -/
def Op.isUpd : Op → Bool
  | .update _ _ _ _ _ _ => true
  | _ => false

/-! ## Availability/reservation observables -/

/-- A reservation whose status is pending or confirmed. -/
def isActive (r : Reservation) : Bool :=
  r.statut == "en_attente" || r.statut == "confirmee"

/-- Some pending/confirmed reservation of the given transaction type
references this car. -/
def hasActive (rs : List Reservation) (cid : Nat) (tt : String) : Bool :=
  rs.any fun r => r.car_id == cid && isActive r && r.type_transaction == tt

/-- Some pending/confirmed reservation (of any type) references this car. -/
def hasActiveAny (rs : List Reservation) (cid : Nat) : Bool :=
  rs.any fun r => r.car_id == cid && isActive r

/-- Some completed sale references this car. -/
def hasCompletedSale (rs : List Reservation) (cid : Nat) : Bool :=
  rs.any fun r => r.car_id == cid && r.statut == "terminee" && r.type_transaction == "vente"

/-- Number of pending/confirmed reservations referencing this car. -/
def activeCount (rs : List Reservation) (cid : Nat) : Nat :=
  rs.countP fun r => r.car_id == cid && isActive r

/-- The overlap condition exactly as the spec states it, on the request and
the stored reservations: same car, rental, status pending/confirmed, and
`existing.start_date < new.end_date ∧ existing.end_date > new.start_date`
(half-open interval overlap). -/
def overlapClaim (db : DB) (data : ReservationCreate) : Prop :=
  ∃ r ∈ db.reservations, r.car_id = data.car_id ∧
    r.type_transaction = "location" ∧
    (r.statut = "en_attente" ∨ r.statut = "confirmee") ∧
    ∃ nf ef, data.date_fin = some nf ∧ r.date_fin = some ef ∧
      r.date_debut < nf ∧ ef > data.date_debut

instance {ε α : Type} [DecidableEq ε] [DecidableEq α] : DecidableEq (Except ε α) :=
  fun x y =>
  match x, y with
  | .ok a, .ok b => decidable_of_iff (a = b) (by simp)
  | .error a, .error b => decidable_of_iff (a = b) (by simp)
  | .ok _, .error _ => isFalse (fun h => Except.noConfusion h)
  | .error _, .ok _ => isFalse (fun h => Except.noConfusion h)

/-- The transition edges exactly as the spec draws them:
`pending → {confirmed, cancelled}` and `confirmed → {completed, cancelled}`. -/
def EdgeOk (st ns : String) : Prop :=
  (st = "en_attente" ∧ (ns = "confirmee" ∨ ns = "annulee")) ∨
  (st = "confirmee" ∧ (ns = "terminee" ∨ ns = "annulee"))

/-- The updated-reservation view of an `update_reservation` outcome: the
error, or the reservation row that was written (discarding the rest of the
database). -/
def updView (x : Except HTTPError (DB × Reservation)) : Except HTTPError Reservation :=
  x.map Prod.snd

/-! ## Concrete instances used by witnesses and counterexamples -/

/-- A single available, active car. -/
def wCar : Car := ⟨1, "disponible", true⟩

/-- A confirmed rental of `wCar` over the half-open interval `[0, 10)`. -/
def wRental : Reservation := ⟨1, 1, 7, "location", 0, some 10, 50, "confirmee", none⟩

/-- State: one available car carrying one confirmed rental `[0, 10)`. -/
def wDB : DB := ⟨[wCar], [wRental]⟩

/-- A rental request `[10, 15)` touching the existing rental's boundary. -/
def wTouchReq : ReservationCreate := ⟨1, "location", 10, some 15, 60, none⟩

/-- A rental request `[5, 12)` overlapping the existing rental, with a
non-positive final price. -/
def wOverlapZeroReq : ReservationCreate := ⟨1, "location", 5, some 12, 0, none⟩

/-- `wRental` after its rental is completed. -/
def wRentalDone : Reservation := ⟨1, 1, 7, "location", 0, some 10, 50, "terminee", none⟩

/-- `wDB` after the rental is completed (car reset to `disponible`). -/
def wDB2 : DB := ⟨[wCar], [wRentalDone]⟩

/-- An update flipping the transaction type from rental to sale. -/
def wUpdVente : ReservationUpdate := { type_transaction := some (some "vente") }

/-- `wRental` after `wUpdVente` is applied. -/
def wResVente : Reservation := ⟨1, 1, 7, "vente", 0, some 10, 50, "confirmee", none⟩

/-- `wDB` after `wUpdVente` is applied to its reservation. -/
def wDB3 : DB := ⟨[wCar], [wResVente]⟩

/-- A state whose only reservation references a car that no longer exists. -/
def wOrphanDB : DB := ⟨[], [wRental]⟩

/-- Initial state for operation sequences: one available car, no
reservations. -/
def cxDB0 : DB := ⟨[wCar], []⟩

/-- A sale request for the car. -/
def cxSaleReq : ReservationCreate := ⟨1, "vente", 5, none, 100, none⟩

/-- Create a sale, confirm it, complete it. -/
def cxOpsSale : List Op :=
  [.create cxSaleReq 7 0 true, .transition 1 "confirmee" "vendeur" true,
   .transition 1 "terminee" "vendeur" true]

/-- An update flipping the transaction type from sale to rental (with an
end date so the re-validation passes). -/
def cxUpdLoc : ReservationUpdate :=
  { type_transaction := some (some "location"), date_fin := some (some 10) }

/-- Create a sale, then edit it into a rental via `update`. -/
def cxOpsUpd : List Op := [.create cxSaleReq 7 0 true, .update 1 cxUpdLoc 7 "client" 0 true]

/-- The car after the completed sale of `cxOpsSale`. -/
def wCarVendu : Car := ⟨1, "vendu", true⟩

/-- Auxiliary inductive invariant of states reachable by `create`,
`transition_status` and `cancel`: primary keys are unique, stored enum
fields are well-formed, each car carries at most one pending/confirmed
reservation, a completed sale freezes its car (no further active
reservations), and each car's availability is determined by its
reservations (`loue` iff an active rental, `vendu` iff an active sale or a
completed sale, otherwise `disponible`). -/
structure Inv (db : DB) : Prop where
  carIds : (db.cars.map Car.id).Nodup
  resIds : (db.reservations.map Reservation.id).Nodup
  statutWf : ∀ r ∈ db.reservations,
    r.statut = "en_attente" ∨ r.statut = "confirmee" ∨
    r.statut = "annulee" ∨ r.statut = "terminee"
  ttWf : ∀ r ∈ db.reservations,
    r.type_transaction = "vente" ∨ r.type_transaction = "location"
  atMostOne : ∀ cid, activeCount db.reservations cid ≤ 1
  saleFreeze : ∀ cid, hasCompletedSale db.reservations cid = true →
    hasActiveAny db.reservations cid = false
  avail : ∀ c ∈ db.cars,
    (c.disponibilite = "loue" ↔ hasActive db.reservations c.id "location" = true) ∧
    (c.disponibilite = "vendu" ↔
      (hasActive db.reservations c.id "vente" = true ∨
       hasCompletedSale db.reservations c.id = true)) ∧
    (c.disponibilite = "disponible" ∨ c.disponibilite = "loue" ∨
     c.disponibilite = "vendu")

/-! ## Theorems -/

theorem validate_location (d : Int) (df : Option Int) (now : Int)
    (h : validate_reservation_dates d df "location" now = true) :
    now ≤ d ∧ ∃ fin, df = some fin ∧ d < fin := by
  unfold validate_reservation_dates at h
  by_cases h1 : d < now
  · simp [h1] at h
  · simp [h1] at h
    cases df with
    | none => simp at h
    | some fin => simp at h; exact ⟨by omega, fin, rfl, h⟩

theorem hasRentalConflict_iff (db : DB) (data : ReservationCreate)
    (htt : data.type_transaction = "location") :
    hasRentalConflict db data = true ↔ overlapClaim db data := by
  unfold hasRentalConflict overlapClaim rentalConflict
  rw [htt]
  generalize hdf : data.date_fin = df
  cases df with
  | none => simp
  | some nf =>
    simp only [List.any_eq_true, Bool.and_eq_true, beq_self_eq_true, true_and,
      Option.isSome_some, decide_eq_true_eq, Bool.or_eq_true, beq_iff_eq,
      Option.some.injEq]
    constructor
    · intro h
      obtain ⟨r, hr, hbig⟩ := h
      obtain ⟨⟨⟨hcid, htt2⟩, hst⟩, hrest⟩ := hbig
      obtain ⟨hlt, hef⟩ := hrest
      split at hef
      next ef hdf2 =>
        exact ⟨r, hr, hcid, htt2, hst, nf, ef, rfl, hdf2, hlt, by simpa using hef⟩
      next => simp at hef
    · rintro ⟨r, hr, hcid, htt2, hst, nf', ef, hnf', hef, hlt, hgt⟩
      obtain rfl : nf = nf' := hnf'
      exact ⟨r, hr, ⟨⟨hcid, htt2⟩, hst⟩, hlt, by rw [hef]; simpa using hgt⟩

/-- C2: on an existing, active, available car, for a rental request with
valid dates, `create` fails with ConflictError precisely when some stored
reservation on the same car with transaction type rental and status
pending/confirmed satisfies the half-open overlap test
`existing.start_date < new.end_date ∧ existing.end_date > new.start_date`;
in particular a request that merely touches an existing rental at its
boundary is not a conflict. -/
theorem create_conflict_iff_overlap (db : DB) (data : ReservationCreate)
    (uid : Nat) (now : Int) (ck : Bool) (car : Car)
    (hcar : findActiveCar db data.car_id = some car)
    (hav : car.disponibilite = "disponible")
    (htt : data.type_transaction = "location")
    (hval : validate_reservation_dates data.date_debut data.date_fin
              data.type_transaction now = true) :
    create_reservation db data uid now ck = .error periodConflict ↔
      overlapClaim db data := by
  unfold create_reservation
  rw [hcar, hval]
  by_cases hc : hasRentalConflict db data
  · have h2 := (hasRentalConflict_iff db data htt).mp hc
    simp [hav, hc, h2]
  · have h2 : ¬ overlapClaim db data :=
      fun h => hc ((hasRentalConflict_iff db data htt).mpr h)
    simp only [hav, hc, ne_eq, not_true_eq_false, if_false, Bool.not_true,
      Bool.false_eq_true, h2, iff_false]
    split_ifs <;> simp [periodConflict, invalidPrice, commitFailed]

theorem create_conflict_iff_overlap_witness :
    (create_reservation wDB wTouchReq 8 0 true = .error periodConflict ↔
      overlapClaim wDB wTouchReq) ∧
    ¬ overlapClaim wDB wTouchReq ∧
    (create_reservation wDB wTouchReq 8 0 true).isOk = true := by
  refine ⟨create_conflict_iff_overlap wDB wTouchReq 8 0 true wCar
    (by decide) rfl rfl (by decide), ?_, by decide⟩
  simp [overlapClaim, wDB, wRental, wTouchReq]

/-- C7: the claim as stated is false: the overlap check of lines 54–69 runs
before the price check of lines 72–76, so a rental request with
`final_price ≤ 0` whose interval overlaps an existing confirmed rental
fails with the ConflictError, not with the price ValidationError. -/
theorem create_price_counterexample :
    (findActiveCar wDB wOverlapZeroReq.car_id).map Car.disponibilite =
      some "disponible" ∧
    wOverlapZeroReq.prix_final ≤ 0 ∧
    validate_reservation_dates wOverlapZeroReq.date_debut
      wOverlapZeroReq.date_fin wOverlapZeroReq.type_transaction 0 = true ∧
    create_reservation wDB wOverlapZeroReq 8 0 true = .error periodConflict ∧
    create_reservation wDB wOverlapZeroReq 8 0 true ≠ .error invalidPrice := by
  refine ⟨by decide, by decide, by decide, by decide, by decide⟩

/-- C7 (amended): on an existing, active, available car with valid dates and
`final_price ≤ 0`, `create` fails with the price ValidationError unless the
request is a rental overlapping an existing pending/confirmed rental on the
same car, in which case it fails with the ConflictError (the overlap check
runs first). -/
theorem create_nonpositive_price_fails (db : DB) (data : ReservationCreate)
    (uid : Nat) (now : Int) (ck : Bool) (car : Car)
    (hcar : findActiveCar db data.car_id = some car)
    (hav : car.disponibilite = "disponible")
    (hval : validate_reservation_dates data.date_debut data.date_fin
              data.type_transaction now = true)
    (hp : data.prix_final ≤ 0) :
    create_reservation db data uid now ck =
      .error (if hasRentalConflict db data then periodConflict
              else invalidPrice) := by
  unfold create_reservation
  rw [hcar, hval]
  by_cases hc : hasRentalConflict db data <;> simp [hav, hc, hp]

theorem create_nonpositive_price_fails_witness :
    create_reservation wDB wOverlapZeroReq 8 0 true =
      .error (if hasRentalConflict wDB wOverlapZeroReq then periodConflict
              else invalidPrice) :=
  create_nonpositive_price_fails wDB wOverlapZeroReq 8 0 true wCar
    (by decide) rfl (by decide) (by decide)

theorem mem_valid_transitions (st ns : String) :
    ns ∈ valid_transitions st ↔ EdgeOk st ns := by
  unfold valid_transitions EdgeOk
  by_cases h1 : st = "en_attente"
  · simp [h1]
  · by_cases h2 : st = "confirmee" <;> simp [h1, h2]

theorem resetsCar_iff (ns tt : String) :
    resetsCar ns tt = true ↔ (ns = "annulee" ∨ (ns = "terminee" ∧ tt = "location")) := by
  unfold resetsCar
  simp [Bool.or_eq_true, Bool.and_eq_true, beq_iff_eq]

theorem find?_setCarAvail (cars : List Car) (cid : Nat) (a : String) :
    (setCarAvail cars cid a).find? (fun c => c.id == cid) =
      (cars.find? (fun c => c.id == cid)).map
        (fun c => { c with disponibilite := a }) := by
  induction cars with
  | nil => rfl
  | cons c cs ih =>
    by_cases h : c.id = cid
    · simp [setCarAvail, List.find?_cons, h]
    · simp only [setCarAvail, List.map_cons] at *
      rw [if_neg (by simpa using h)]
      rw [List.find?_cons_of_neg _ (by simpa using h),
          List.find?_cons_of_neg _ (by simpa using h)]
      exact ih

theorem find?_setRes (rs : List Reservation) (rid : Nat) (r2 : Reservation)
    (h2 : r2.id = rid) :
    (setRes rs rid r2).find? (fun r => r.id == rid) =
      (rs.find? (fun r => r.id == rid)).map (fun _ => r2) := by
  induction rs with
  | nil => rfl
  | cons r rs ih =>
    by_cases h : r.id = rid
    · simp [setRes, List.find?_cons, h, h2]
    · simp only [setRes, List.map_cons]
      rw [if_neg (by simpa using h)]
      rw [List.find?_cons_of_neg _ (by simpa using h),
          List.find?_cons_of_neg _ (by simpa using h)]
      exact ih

theorem id_of_findReservation {db : DB} {rid : Nat} {r : Reservation}
    (hr : findReservation db rid = some r) : r.id = rid := by
  have := List.find?_some hr
  simpa using this

theorem apply_update_fields_id (r : Reservation) (u : ReservationUpdate)
    (r2 : Reservation) (h : apply_update_fields r u = .ok r2) : r2.id = r.id := by
  unfold apply_update_fields at h
  split at h
  · exact Except.noConfusion h
  · injection h with h; rw [← h]

/-- C3: for an existing reservation (whose car row exists) and a privileged
caller with a committing store, `transition_status` succeeds exactly on the
declared edges `pending → {confirmed, cancelled}` and
`confirmed → {completed, cancelled}`; on every other pair — including any
transition out of `cancelled` or `completed` — it fails with
InvalidTransition rather than silently succeeding. -/
theorem transition_status_edges (db : DB) (rid : Nat) (ns : String)
    (r : Reservation) (c : Car)
    (hr : findReservation db rid = some r)
    (hc : findCarAny db r.car_id = some c) :
    ((update_reservation_status db rid ns "vendeur" true).isOk = true ↔
      EdgeOk r.statut ns) ∧
    (¬ EdgeOk r.statut ns →
      update_reservation_status db rid ns "vendeur" true = .error invalidTransition) := by
  unfold update_reservation_status
  rw [hr]
  simp only [ne_eq, not_true_eq_false, if_false]
  by_cases he : ns ∈ valid_transitions r.statut
  · have hedge := (mem_valid_transitions r.statut ns).mp he
    refine ⟨?_, fun hne => absurd hedge hne⟩
    by_cases hrst : resetsCar ns r.type_transaction <;>
      simp [he, hrst, hc, hedge, Except.isOk, Except.toBool]
  · have hedge : ¬ EdgeOk r.statut ns :=
      fun h => he ((mem_valid_transitions r.statut ns).mpr h)
    simp [he, hedge, Except.isOk, Except.toBool]

theorem transition_status_edges_witness :
    (((update_reservation_status wDB 1 "terminee" "vendeur" true).isOk = true ↔
      EdgeOk wRental.statut "terminee") ∧
     (¬ EdgeOk wRental.statut "terminee" →
      update_reservation_status wDB 1 "terminee" "vendeur" true =
        .error invalidTransition)) ∧
    (update_reservation_status wDB2 1 "terminee" "vendeur" true =
        .error invalidTransition) := by
  refine ⟨transition_status_edges wDB 1 "terminee" wRental wCar
    (by decide) (by decide), ?_⟩
  exact (transition_status_edges wDB2 1 "terminee" wRentalDone wCar
    (by decide) (by decide)).2 (by simp [EdgeOk, wRentalDone])

/-- C4: a successful `transition_status` resets the associated car's
availability to `available` when the target status is `cancelled` (any
transaction type) or `completed` on a rental; every other successful
transition (`confirmed`, or `completed` on a sale) leaves the cars table
entirely unchanged. -/
theorem transition_car_side_effect (db : DB) (rid : Nat) (ns : String)
    (role : String) (r : Reservation) (db2 : DB) (r2 : Reservation)
    (hr : findReservation db rid = some r)
    (hok : update_reservation_status db rid ns role true = .ok (db2, r2)) :
    ((ns = "annulee" ∨ (ns = "terminee" ∧ r.type_transaction = "location")) →
       (findCarAny db2 r.car_id).map Car.disponibilite = some "disponible") ∧
    (¬ (ns = "annulee" ∨ (ns = "terminee" ∧ r.type_transaction = "location")) →
       db2.cars = db.cars) := by
  unfold update_reservation_status at hok
  rw [hr] at hok
  simp only [eq_self_iff_true, if_true] at hok
  split at hok
  · exact absurd hok (by simp)
  · split at hok
    · exact absurd hok (by simp)
    · by_cases hrst : resetsCar ns r.type_transaction
      · have hreset := (resetsCar_iff ns r.type_transaction).mp hrst
        simp only [hrst, if_true] at hok
        cases hfc : findCarAny db r.car_id with
        | none => rw [hfc] at hok; exact absurd hok (by simp)
        | some c =>
          rw [hfc] at hok
          have hpair : ({ cars := setCarAvail db.cars r.car_id "disponible",
                          reservations := setRes db.reservations rid
                            { r with statut := ns } } : DB) = db2 ∧
                       ({ r with statut := ns } : Reservation) = r2 := by
            simpa using hok
          have hdb2 : db2.cars = setCarAvail db.cars r.car_id "disponible" := by
            rw [← hpair.1]
          refine ⟨fun _ => ?_, fun hne => absurd hreset hne⟩
          unfold findCarAny
          rw [hdb2, find?_setCarAvail]
          unfold findCarAny at hfc
          rw [hfc]
          rfl
      · have hnr : ¬ (ns = "annulee" ∨ (ns = "terminee" ∧ r.type_transaction = "location")) :=
          fun h => hrst ((resetsCar_iff ns r.type_transaction).mpr h)
        simp only [Bool.not_eq_true] at hrst
        simp only [hrst, Bool.false_eq_true, if_false] at hok
        have hpair : ({ cars := db.cars,
                        reservations := setRes db.reservations rid
                          { r with statut := ns } } : DB) = db2 ∧
                     ({ r with statut := ns } : Reservation) = r2 := by
          simpa using hok
        have hdb2 : db2.cars = db.cars := by rw [← hpair.1]
        exact ⟨fun h => absurd h hnr, fun _ => hdb2⟩

theorem transition_car_side_effect_witness :
    (("terminee" = "annulee" ∨
        ("terminee" = "terminee" ∧ wRental.type_transaction = "location")) →
       (findCarAny wDB2 wRental.car_id).map Car.disponibilite =
         some "disponible") ∧
    (¬ ("terminee" = "annulee" ∨
        ("terminee" = "terminee" ∧ wRental.type_transaction = "location")) →
       wDB2.cars = wDB.cars) :=
  transition_car_side_effect wDB 1 "terminee" "vendeur" wRental wDB2
    wRentalDone (by decide) (by decide)

/-- C5: when the store refuses the commit, neither `create` nor
`transition_status` returns a success, and the persisted state after the
failed operation is exactly the state before it — the reservation write and
the car-availability write of one operation are never applied separately,
because both sit in front of the operation's single commit point. -/
theorem commit_failure_rolls_back (db : DB) (data : ReservationCreate)
    (uid : Nat) (now : Int) (rid : Nat) (ns role : String) :
    (∀ out, create_reservation db data uid now false ≠ .ok out) ∧
    (∀ out, update_reservation_status db rid ns role false ≠ .ok out) ∧
    Op.apply db (.create data uid now false) = db ∧
    Op.apply db (.transition rid ns role false) = db := by
  have h1 : ∀ out, create_reservation db data uid now false ≠ .ok out := by
    intro out h
    unfold create_reservation at h
    repeat' first
      | exact Except.noConfusion h
      | split at h
  have h2 : ∀ out, update_reservation_status db rid ns role false ≠ .ok out := by
    intro out h
    unfold update_reservation_status at h
    repeat' first
      | exact Except.noConfusion h
      | split at h
  refine ⟨h1, h2, ?_, ?_⟩
  · cases hres : create_reservation db data uid now false with
    | ok out => exact absurd hres (h1 out)
    | error e => simp only [Op.apply, hres]
  · cases hres : update_reservation_status db rid ns role false with
    | ok out => exact absurd hres (h2 out)
    | error e => simp only [Op.apply, hres]

/-- C6: `cancel` fails with PermissionError for a client acting on a foreign
reservation, fails with InvalidState on an already `cancelled` or
`completed` reservation, and otherwise succeeds, setting the reservation's
status to `cancelled` and the associated car's availability to
`available`. -/
theorem cancel_semantics (db : DB) (rid uid : Nat) (role : String)
    (r : Reservation) (c : Car)
    (hr : findReservation db rid = some r)
    (hc : findCarAny db r.car_id = some c) :
    (role = "client" → r.user_id ≠ uid →
       cancel_reservation db rid uid role true = .error cancelForbidden) ∧
    ((role = "client" → r.user_id = uid) →
       (r.statut = "annulee" ∨ r.statut = "terminee") →
       cancel_reservation db rid uid role true = .error cannotCancel) ∧
    ((role = "client" → r.user_id = uid) →
       ¬ (r.statut = "annulee" ∨ r.statut = "terminee") →
       ∃ db2, cancel_reservation db rid uid role true = .ok db2 ∧
         (findReservation db2 rid).map Reservation.statut = some "annulee" ∧
         (findCarAny db2 r.car_id).map Car.disponibilite = some "disponible") := by
  have hid : r.id = rid := id_of_findReservation hr
  unfold cancel_reservation
  rw [hr]
  simp only []
  refine ⟨?_, ?_, ?_⟩
  · intro hrole hown
    rw [if_pos ⟨hrole, hown⟩]
  · intro hown hterm
    rw [if_neg (by rintro ⟨h1, h2⟩; exact h2 (hown h1)), if_pos hterm]
  · intro hown hterm
    rw [if_neg (by rintro ⟨h1, h2⟩; exact h2 (hown h1)), if_neg hterm, hc]
    simp only [eq_self_iff_true, if_true]
    refine ⟨_, rfl, ?_, ?_⟩
    · unfold findReservation
      simp only []
      rw [find?_setRes _ _ _ (by simpa using hid)]
      unfold findReservation at hr
      rw [hr]
      rfl
    · unfold findCarAny
      simp only []
      rw [find?_setCarAvail]
      unfold findCarAny at hc
      rw [hc]
      rfl

theorem cancel_semantics_witness :
    ("client" = "client" → wRental.user_id ≠ 9 →
       cancel_reservation wDB 1 9 "client" true = .error cancelForbidden) ∧
    (("client" = "client" → wRental.user_id = 9) →
       (wRental.statut = "annulee" ∨ wRental.statut = "terminee") →
       cancel_reservation wDB 1 9 "client" true = .error cannotCancel) ∧
    (("client" = "client" → wRental.user_id = 9) →
       ¬ (wRental.statut = "annulee" ∨ wRental.statut = "terminee") →
       ∃ db2, cancel_reservation wDB 1 9 "client" true = .ok db2 ∧
         (findReservation db2 1).map Reservation.statut = some "annulee" ∧
         (findCarAny db2 wRental.car_id).map Car.disponibilite =
           some "disponible") :=
  cancel_semantics wDB 1 9 "client" wRental wCar (by decide) (by decide)

/-- C8: for a client caller, `update` rejects foreign reservations with
PermissionError and non-pending reservations outright, so it succeeds only
on an owned pending reservation; whenever the update touches the start
date, end date or transaction type, a successful update satisfies the
date/type validation of `create` on the resulting stored reservation; and
the outcome (error or resulting reservation) is entirely independent of
every other row in the database, so no overlap conflict check against other
reservations takes place. -/
theorem update_guard_and_revalidation (db : DB) (rid : Nat)
    (u : ReservationUpdate) (uid : Nat) (now : Int) (r : Reservation)
    (hr : findReservation db rid = some r) :
    (r.user_id ≠ uid →
       update_reservation db rid u uid "client" now true = .error updateForbidden) ∧
    (r.user_id = uid → r.statut ≠ "en_attente" →
       update_reservation db rid u uid "client" now true = .error onlyPending) ∧
    (∀ out, update_reservation db rid u uid "client" now true = .ok out →
       r.user_id = uid ∧ r.statut = "en_attente") ∧
    (touchesDates u = true → ∀ db2 r2,
       update_reservation db rid u uid "client" now true = .ok (db2, r2) →
       validate_reservation_dates r2.date_debut r2.date_fin
         r2.type_transaction now = true ∧
       findReservation db2 rid = some r2) ∧
    (∀ (db' : DB) (role : String) (ck : Bool), findReservation db' rid = some r →
       updView (update_reservation db rid u uid role now ck) =
       updView (update_reservation db' rid u uid role now ck)) := by
  have hid : r.id = rid := id_of_findReservation hr
  refine ⟨?_, ?_, ?_, ?_, ?_⟩
  · intro hown
    unfold update_reservation
    rw [hr]
    simp only [true_and]
    rw [if_pos hown]
  · intro hown hpend
    unfold update_reservation
    rw [hr]
    simp only [true_and]
    rw [if_neg (fun hx => hx hown), if_pos hpend]
  · intro out hok
    unfold update_reservation at hok
    rw [hr] at hok
    simp only [true_and] at hok
    by_cases h1 : r.user_id = uid
    · by_cases h2 : r.statut = "en_attente"
      · exact ⟨h1, h2⟩
      · rw [if_neg (fun hx => hx h1), if_pos h2] at hok
        exact Except.noConfusion hok
    · rw [if_pos h1] at hok
      exact Except.noConfusion hok
  · intro htd db2 r2 hok
    unfold update_reservation at hok
    rw [hr] at hok
    simp only [true_and, eq_self_iff_true, if_true] at hok
    split at hok
    · exact Except.noConfusion hok
    · split at hok
      · exact Except.noConfusion hok
      · split at hok
        · exact Except.noConfusion hok
        · next r2' heq =>
          split at hok
          · exact Except.noConfusion hok
          · next hcond =>
            rw [Except.ok.injEq, Prod.mk.injEq] at hok
            obtain ⟨hdb2, hr2⟩ := hok
            subst hr2
            constructor
            · by_cases hv : validate_reservation_dates r2'.date_debut r2'.date_fin
                  r2'.type_transaction now = true
              · exact hv
              · exact absurd ⟨htd, by simpa using hv⟩ hcond
            · rw [← hdb2]
              unfold findReservation
              simp only []
              have hid2 : r2'.id = rid := by
                rw [apply_update_fields_id r u r2' heq, hid]
              rw [find?_setRes _ _ _ hid2]
              unfold findReservation at hr
              rw [hr]
              rfl
  · intro db' role ck hr'
    unfold update_reservation
    rw [hr, hr']
    simp only []
    by_cases h1 : role = "client" ∧ r.user_id ≠ uid
    · rw [if_pos h1, if_pos h1]
    · rw [if_neg h1, if_neg h1]
      by_cases h2 : role = "client" ∧ r.statut ≠ "en_attente"
      · rw [if_pos h2, if_pos h2]
      · rw [if_neg h2, if_neg h2]
        cases hap : apply_update_fields r u with
        | error e => rfl
        | ok r2 =>
          simp only []
          by_cases h3 : touchesDates u = true ∧ validate_reservation_dates
              r2.date_debut r2.date_fin r2.type_transaction now = false
          · rw [if_pos h3, if_pos h3]
          · rw [if_neg h3, if_neg h3]
            cases ck <;> simp [updView, Except.map]

theorem update_guard_and_revalidation_witness :
    update_reservation wDB 1 wUpdVente 9 "client" 0 true =
      .error updateForbidden :=
  (update_guard_and_revalidation wDB 1 wUpdVente 9 0 wRental (by decide)).1
    (by decide)

/-- C9: a successful `update_reservation` never touches the cars table:
the cars of the resulting state are exactly the cars of the input state,
with every field of every car unchanged — even when the update switches the
transaction type between sale and rental or moves the dates. -/
theorem update_preserves_cars (db : DB) (rid : Nat) (u : ReservationUpdate)
    (uid : Nat) (role : String) (now : Int) (ck : Bool) (db2 : DB)
    (r2 : Reservation)
    (hok : update_reservation db rid u uid role now ck = .ok (db2, r2)) :
    db2.cars = db.cars := by
  unfold update_reservation at hok
  split at hok
  · exact Except.noConfusion hok
  · split at hok
    · exact Except.noConfusion hok
    · split at hok
      · exact Except.noConfusion hok
      · split at hok
        · exact Except.noConfusion hok
        · split at hok
          · exact Except.noConfusion hok
          · split at hok
            · rw [Except.ok.injEq, Prod.mk.injEq] at hok
              obtain ⟨h1, -⟩ := hok
              rw [← h1]
            · exact Except.noConfusion hok

theorem update_preserves_cars_witness :
    wDB3.cars = wDB.cars ∧
    update_reservation wDB 1 wUpdVente 7 "vendeur" 0 true = .ok (wDB3, wResVente) :=
  ⟨update_preserves_cars wDB 1 wUpdVente 7 "vendeur" 0 true wDB3 wResVente
     (by decide), by decide⟩

/-- C10: `cancel` by an authorized actor on a non-terminal reservation
whose `car_id` matches no existing car still succeeds: the reservation is
marked `cancelled`, the cars table is untouched, and no NotFound error is
raised for the missing car. -/
theorem cancel_dangling_car (db : DB) (rid uid : Nat) (role : String)
    (r : Reservation)
    (hr : findReservation db rid = some r)
    (hauth : role = "client" → r.user_id = uid)
    (hst : ¬ (r.statut = "annulee" ∨ r.statut = "terminee"))
    (hdangling : findCarAny db r.car_id = none) :
    ∃ db2, cancel_reservation db rid uid role true = .ok db2 ∧
      db2.cars = db.cars ∧
      (findReservation db2 rid).map Reservation.statut = some "annulee" := by
  have hid : r.id = rid := id_of_findReservation hr
  unfold cancel_reservation
  rw [hr]
  simp only []
  rw [if_neg (by rintro ⟨h1, h2⟩; exact h2 (hauth h1)), if_neg hst, hdangling]
  simp only [eq_self_iff_true, if_true]
  refine ⟨_, rfl, rfl, ?_⟩
  unfold findReservation
  simp only []
  rw [find?_setRes _ _ _ (by simpa using hid)]
  unfold findReservation at hr
  rw [hr]
  rfl

theorem cancel_dangling_car_witness :
    ∃ db2, cancel_reservation wOrphanDB 1 7 "client" true = .ok db2 ∧
      db2.cars = wOrphanDB.cars ∧
      (findReservation db2 1).map Reservation.statut = some "annulee" :=
  cancel_dangling_car wOrphanDB 1 7 "client" wRental (by decide) (by decide)
    (by decide) (by decide)

theorem le_foldr_max (l : List Nat) (n : Nat) (h : n ∈ l) :
    n ≤ l.foldr max 0 := by
  induction l with
  | nil => cases h
  | cons x xs ih =>
    rcases List.mem_cons.mp h with rfl | h2
    · simp [List.foldr]
    · have := ih h2
      simp only [List.foldr]
      omega

theorem freshId_not_mem (rs : List Reservation) :
    freshId rs ∉ rs.map Reservation.id := by
  intro h
  have := le_foldr_max (rs.map Reservation.id) _ h
  unfold freshId at this
  omega

theorem setCarAvail_map_id (cars : List Car) (cid : Nat) (a : String) :
    (setCarAvail cars cid a).map Car.id = cars.map Car.id := by
  unfold setCarAvail
  rw [List.map_map]
  apply List.map_congr_left
  intro c _
  by_cases h : c.id = cid <;> simp [h]

theorem split_of_mem_nodup {α : Type} (f : α → Nat) (l : List α) (a : α)
    (h : a ∈ l) (hnd : (l.map f).Nodup) :
    ∃ s t, l = s ++ a :: t ∧ (∀ x ∈ s, f x ≠ f a) ∧ (∀ x ∈ t, f x ≠ f a) := by
  obtain ⟨s, t, rfl⟩ := List.append_of_mem h
  rw [List.map_append, List.map_cons, List.nodup_append] at hnd
  obtain ⟨-, hnd2, hdisj⟩ := hnd
  refine ⟨s, t, rfl, ?_, ?_⟩
  · intro x hx hfx
    exact hdisj (List.mem_map_of_mem f hx) (by simp [hfx])
  · intro x hx hfx
    rw [List.nodup_cons] at hnd2
    exact hnd2.1 (hfx ▸ List.mem_map_of_mem f hx)

theorem setRes_untouched (l : List Reservation) (rid : Nat) (r2 : Reservation)
    (h : ∀ x ∈ l, x.id ≠ rid) : setRes l rid r2 = l := by
  induction l with
  | nil => rfl
  | cons x xs ih =>
    unfold setRes at *
    simp only [List.map_cons]
    rw [if_neg (by simpa using h x (by simp)), ih (fun y hy => h y (by simp [hy]))]

theorem setCarAvail_untouched (l : List Car) (cid : Nat) (a : String)
    (h : ∀ x ∈ l, x.id ≠ cid) : setCarAvail l cid a = l := by
  induction l with
  | nil => rfl
  | cons x xs ih =>
    unfold setCarAvail at *
    simp only [List.map_cons]
    rw [if_neg (by simpa using h x (by simp)), ih (fun y hy => h y (by simp [hy]))]

theorem setRes_split (s t : List Reservation) (r0 r2 : Reservation)
    (hs : ∀ x ∈ s, x.id ≠ r0.id) (ht : ∀ x ∈ t, x.id ≠ r0.id) :
    setRes (s ++ r0 :: t) r0.id r2 = s ++ r2 :: t := by
  unfold setRes
  rw [List.map_append, List.map_cons]
  have h1 : (s.map fun r => if r.id == r0.id then r2 else r) = s := by
    have := setRes_untouched s r0.id r2 hs
    unfold setRes at this
    exact this
  have h3 : (t.map fun r => if r.id == r0.id then r2 else r) = t := by
    have := setRes_untouched t r0.id r2 ht
    unfold setRes at this
    exact this
  rw [h1, h3, if_pos (by simp)]

theorem findCarAny_some {db : DB} {cid : Nat} {c : Car}
    (h : findCarAny db cid = some c) : c ∈ db.cars ∧ c.id = cid := by
  refine ⟨List.mem_of_find?_eq_some h, ?_⟩
  have := List.find?_some h
  simpa using this

theorem findActiveCar_some {db : DB} {cid : Nat} {c : Car}
    (h : findActiveCar db cid = some c) :
    c ∈ db.cars ∧ c.id = cid ∧ c.is_active = true := by
  refine ⟨List.mem_of_find?_eq_some h, ?_⟩
  have := List.find?_some h
  simp only [Bool.and_eq_true, beq_iff_eq] at this
  exact this

theorem findReservation_some {db : DB} {rid : Nat} {r : Reservation}
    (h : findReservation db rid = some r) :
    r ∈ db.reservations ∧ r.id = rid := by
  refine ⟨List.mem_of_find?_eq_some h, ?_⟩
  have := List.find?_some h
  simpa using this

theorem hasActive_imp_any (l : List Reservation) (cid : Nat) (tt : String)
    (h : hasActive l cid tt = true) : hasActiveAny l cid = true := by
  unfold hasActive at h
  unfold hasActiveAny
  rw [List.any_eq_true] at h ⊢
  obtain ⟨r, hr, hp⟩ := h
  simp only [Bool.and_eq_true] at hp
  exact ⟨r, hr, by simp [hp.1.1, hp.1.2]⟩

theorem activeCount_zero_iff (l : List Reservation) (cid : Nat) :
    activeCount l cid = 0 ↔ hasActiveAny l cid = false := by
  unfold activeCount hasActiveAny
  rw [List.countP_eq_zero, List.any_eq_false]

theorem hasActiveAny_false_of_tt (l : List Reservation) (cid : Nat)
    (httWf : ∀ r ∈ l, r.type_transaction = "vente" ∨ r.type_transaction = "location")
    (h1 : hasActive l cid "vente" = false)
    (h2 : hasActive l cid "location" = false) :
    hasActiveAny l cid = false := by
  unfold hasActiveAny
  rw [List.any_eq_false]
  intro r hr hp
  simp only [Bool.and_eq_true, beq_iff_eq] at hp
  unfold hasActive at h1 h2
  rw [List.any_eq_false] at h1 h2
  rcases httWf r hr with htt | htt
  · exact h1 r hr (by simp [hp.1, hp.2, htt])
  · exact h2 r hr (by simp [hp.1, hp.2, htt])



theorem hasActive_snoc (l : List Reservation) (m : Reservation) (cid : Nat) (tt : String) :
    hasActive (l ++ [m]) cid tt =
      (hasActive l cid tt || (m.car_id == cid && isActive m && m.type_transaction == tt)) := by
  simp [hasActive, List.any_append]

theorem hasActiveAny_snoc (l : List Reservation) (m : Reservation) (cid : Nat) :
    hasActiveAny (l ++ [m]) cid =
      (hasActiveAny l cid || (m.car_id == cid && isActive m)) := by
  simp [hasActiveAny, List.any_append]

theorem hasCompletedSale_snoc (l : List Reservation) (m : Reservation) (cid : Nat) :
    hasCompletedSale (l ++ [m]) cid =
      (hasCompletedSale l cid ||
       (m.car_id == cid && m.statut == "terminee" && m.type_transaction == "vente")) := by
  simp [hasCompletedSale, List.any_append]

theorem activeCount_snoc (l : List Reservation) (m : Reservation) (cid : Nat) :
    activeCount (l ++ [m]) cid =
      activeCount l cid + (if (m.car_id == cid && isActive m) = true then 1 else 0) := by
  simp [activeCount, List.countP_append, List.countP_cons]

theorem Inv.insert_pres {cars : List Car} {rs : List Reservation}
    (hI : Inv ⟨cars, rs⟩) (newRes : Reservation) (car : Car) (newAvail : String)
    (hcarmem : car ∈ cars) (hcid : newRes.car_id = car.id)
    (hfresh : newRes.id ∉ rs.map Reservation.id)
    (hstat : newRes.statut = "en_attente")
    (htt : newRes.type_transaction = "vente" ∨ newRes.type_transaction = "location")
    (hdisp : car.disponibilite = "disponible")
    (hA : newAvail = if newRes.type_transaction = "vente" then "vendu" else "loue") :
    Inv ⟨setCarAvail cars car.id newAvail, rs ++ [newRes]⟩ := by
  obtain ⟨hl, hv, -⟩ := hI.avail car hcarmem
  rw [hdisp] at hl hv
  have hnl : hasActive rs car.id "location" = false := by
    rw [← Bool.not_eq_true]
    intro hx
    exact absurd (hl.mpr hx) (by decide)
  have hnv : hasActive rs car.id "vente" = false := by
    rw [← Bool.not_eq_true]
    intro hx
    exact absurd (hv.mpr (Or.inl hx)) (by decide)
  have hncs : hasCompletedSale rs car.id = false := by
    rw [← Bool.not_eq_true]
    intro hx
    exact absurd (hv.mpr (Or.inr hx)) (by decide)
  have hany : hasActiveAny rs car.id = false :=
    hasActiveAny_false_of_tt rs car.id hI.ttWf hnv hnl
  have hcnt : activeCount rs car.id = 0 := (activeCount_zero_iff rs car.id).mpr hany
  have hactN : isActive newRes = true := by simp [isActive, hstat]
  have hA1 : ∀ tt', hasActive (rs ++ [newRes]) car.id tt' =
      (hasActive rs car.id tt' || (newRes.type_transaction == tt')) := by
    intro tt'
    rw [hasActive_snoc]
    simp [hcid, hactN]
  have hCS1 : hasCompletedSale (rs ++ [newRes]) car.id =
      hasCompletedSale rs car.id := by
    rw [hasCompletedSale_snoc]
    simp [hstat]
  have hA2 : ∀ cid, cid ≠ car.id → ∀ tt', hasActive (rs ++ [newRes]) cid tt' =
      hasActive rs cid tt' := by
    intro cid hne tt'
    rw [hasActive_snoc]
    have : (newRes.car_id == cid) = false := by
      rw [hcid, beq_eq_false_iff_ne]
      exact fun hx => hne hx.symm
    simp [this]
  have hCS2 : ∀ cid, cid ≠ car.id → hasCompletedSale (rs ++ [newRes]) cid =
      hasCompletedSale rs cid := by
    intro cid hne
    rw [hasCompletedSale_snoc]
    have : (newRes.car_id == cid) = false := by
      rw [hcid, beq_eq_false_iff_ne]
      exact fun hx => hne hx.symm
    simp [this]
  constructor
  · rw [setCarAvail_map_id]; exact hI.carIds
  · rw [List.map_append]
    simp only [List.map_cons, List.map_nil]
    rw [List.nodup_append]
    refine ⟨hI.resIds, List.nodup_singleton _, ?_⟩
    intro x hx hx2
    simp only [List.mem_singleton] at hx2
    exact hfresh (hx2 ▸ hx)
  · intro r hr
    rcases List.mem_append.mp hr with h | h
    · exact hI.statutWf r h
    · simp only [List.mem_singleton] at h
      subst h
      exact Or.inl hstat
  · intro r hr
    rcases List.mem_append.mp hr with h | h
    · exact hI.ttWf r h
    · simp only [List.mem_singleton] at h
      subst h
      exact htt
  · intro cid
    rw [activeCount_snoc]
    by_cases hc : car.id = cid
    · rw [← hc, hcnt]
      split <;> omega
    · have hb : (newRes.car_id == cid) = false := by
        rw [hcid, beq_eq_false_iff_ne]
        exact hc
      simp only [hb, Bool.false_and, Bool.false_eq_true, if_false]
      have h4 : activeCount rs cid ≤ 1 := hI.atMostOne cid
      omega
  · intro cid hcs
    by_cases hc : car.id = cid
    · rw [← hc, hCS1] at hcs
      exact absurd hcs (by rw [hncs]; decide)
    · rw [hCS2 cid (fun hx => hc hx.symm)] at hcs
      have hold := hI.saleFreeze cid hcs
      rw [hasActiveAny_snoc]
      have hb : (newRes.car_id == cid) = false := by
        rw [hcid, beq_eq_false_iff_ne]
        exact hc
      simp [hold, hb]
  · intro c' hc'
    obtain ⟨c, hcmem, rfl⟩ := List.mem_map.mp hc'
    by_cases hcc : c.id = car.id
    · have hceq : c = car := by
        have hinj := List.inj_on_of_nodup_map hI.carIds
        exact hinj hcmem hcarmem hcc
      subst hceq
      simp only [beq_self_eq_true, if_true]
      rcases htt with htv | htl
      · rw [hA, if_pos htv]
        refine ⟨?_, ?_, by simp⟩
        · show ("vendu" : String) = "loue" ↔ _
          rw [show ({ c with disponibilite := "vendu" } : Car).id = c.id from rfl]
          rw [hA1, htv]
          simp [hnl]
        · show ("vendu" : String) = "vendu" ↔ _
          rw [show ({ c with disponibilite := "vendu" } : Car).id = c.id from rfl]
          rw [hA1, hCS1, htv]
          simp [hnv, hncs]
      · rw [hA, if_neg (by rw [htl]; decide)]
        refine ⟨?_, ?_, by simp⟩
        · show ("loue" : String) = "loue" ↔ _
          rw [show ({ c with disponibilite := "loue" } : Car).id = c.id from rfl]
          rw [hA1, htl]
          simp
        · show ("loue" : String) = "vendu" ↔ _
          rw [show ({ c with disponibilite := "loue" } : Car).id = c.id from rfl]
          rw [hA1, hCS1, htl]
          simp [hnv, hncs]
    · rw [if_neg (by simpa using hcc)]
      obtain ⟨hl2, hv2, h3⟩ := hI.avail c hcmem
      refine ⟨?_, ?_, h3⟩
      · rw [hA2 c.id hcc]
        exact hl2
      · rw [hA2 c.id hcc, hCS2 c.id hcc]
        exact hv2



theorem Inv.create_pres {db : DB} (hI : Inv db) (data : ReservationCreate)
    (uid : Nat) (now : Int) (ck : Bool)
    (hwf : data.type_transaction = "vente" ∨ data.type_transaction = "location")
    (db2 : DB) (res : Reservation)
    (hok : create_reservation db data uid now ck = .ok (db2, res)) : Inv db2 := by
  unfold create_reservation at hok
  cases hcar : findActiveCar db data.car_id with
  | none => rw [hcar] at hok; exact Except.noConfusion hok
  | some car =>
    rw [hcar] at hok
    simp only [] at hok
    split at hok
    · exact Except.noConfusion hok
    next hdisp =>
    split at hok
    · exact Except.noConfusion hok
    next hval =>
    split at hok
    · exact Except.noConfusion hok
    next hconf =>
    split at hok
    · exact Except.noConfusion hok
    next hprice =>
    split at hok
    case isFalse => exact Except.noConfusion hok
    case isTrue hck =>
    rw [Except.ok.injEq, Prod.mk.injEq] at hok
    obtain ⟨hdb2, -⟩ := hok
    obtain ⟨hcm, hcid, -⟩ := findActiveCar_some hcar
    rw [← hdb2]
    have hI' : Inv ⟨db.cars, db.reservations⟩ := hI
    have hdispo : car.disponibilite = "disponible" := not_not.mp hdisp
    rcases hwf with htv | htl
    · rw [htv]
      simp only [beq_self_eq_true, if_true]
      rw [← hcid]
      exact Inv.insert_pres hI' _ car "vendu" hcm rfl
        (freshId_not_mem _) rfl (Or.inl rfl) hdispo (by simp)
    · rw [htl]
      have hne : (("location" : String) == "vente") = false := by decide
      simp only [hne, Bool.false_eq_true, if_false, beq_self_eq_true, if_true]
      rw [← hcid]
      exact Inv.insert_pres hI' _ car "loue" hcm rfl
        (freshId_not_mem _) rfl (Or.inr rfl) hdispo (by simp)



theorem hasActive_parts (s t : List Reservation) (m : Reservation) (cid : Nat) (tt : String) :
    hasActive (s ++ m :: t) cid tt =
      (hasActive s cid tt ||
        ((m.car_id == cid && isActive m && m.type_transaction == tt) ||
         hasActive t cid tt)) := by
  simp [hasActive, List.any_append, List.any_cons]

theorem hasActiveAny_parts (s t : List Reservation) (m : Reservation) (cid : Nat) :
    hasActiveAny (s ++ m :: t) cid =
      (hasActiveAny s cid || ((m.car_id == cid && isActive m) || hasActiveAny t cid)) := by
  simp [hasActiveAny, List.any_append, List.any_cons]

theorem hasCompletedSale_parts (s t : List Reservation) (m : Reservation) (cid : Nat) :
    hasCompletedSale (s ++ m :: t) cid =
      (hasCompletedSale s cid ||
        ((m.car_id == cid && m.statut == "terminee" && m.type_transaction == "vente") ||
         hasCompletedSale t cid)) := by
  simp [hasCompletedSale, List.any_append, List.any_cons]

theorem activeCount_parts (s t : List Reservation) (m : Reservation) (cid : Nat) :
    activeCount (s ++ m :: t) cid =
      activeCount s cid +
        (activeCount t cid + (if (m.car_id == cid && isActive m) = true then 1 else 0)) := by
  simp [activeCount, List.countP_append, List.countP_cons]

theorem active_statut {r : Reservation} (h : isActive r = true) :
    r.statut = "en_attente" ∨ r.statut = "confirmee" := by
  unfold isActive at h
  rw [Bool.or_eq_true] at h
  rcases h with h1 | h1
  · exact Or.inl (by simpa using h1)
  · exact Or.inr (by simpa using h1)



theorem or3_false {a b c : Bool} (h : (a || (b || c)) = false) :
    a = false ∧ b = false ∧ c = false := by
  rcases a <;> rcases b <;> rcases c <;> simp_all

theorem hasActive_false_of_anyFalse {l : List Reservation} {cid : Nat}
    (h : hasActiveAny l cid = false) (tt : String) : hasActive l cid tt = false := by
  rw [← Bool.not_eq_true]
  intro hx
  rw [hasActive_imp_any l cid tt hx] at h
  exact Bool.noConfusion h

theorem parts_facts {cars : List Car} {s t : List Reservation} {r0 : Reservation}
    (hI : Inv ⟨cars, s ++ r0 :: t⟩) (hact0 : isActive r0 = true) :
    hasActiveAny s r0.car_id = false ∧ hasActiveAny t r0.car_id = false ∧
    hasCompletedSale (s ++ r0 :: t) r0.car_id = false := by
  have hcnt : activeCount (s ++ r0 :: t) r0.car_id ≤ 1 := hI.atMostOne r0.car_id
  rw [activeCount_parts] at hcnt
  have hif : (if (r0.car_id == r0.car_id && isActive r0) = true then 1 else 0) = 1 := by
    simp [hact0]
  rw [hif] at hcnt
  have hs0 : activeCount s r0.car_id = 0 := by omega
  have ht0 : activeCount t r0.car_id = 0 := by omega
  refine ⟨(activeCount_zero_iff _ _).mp hs0, (activeCount_zero_iff _ _).mp ht0, ?_⟩
  rw [← Bool.not_eq_true]
  intro hcs
  have hfr := hI.saleFreeze r0.car_id hcs
  rw [hasActiveAny_parts] at hfr
  simp [hact0] at hfr


theorem Inv.replace_core {cars cars2 : List Car} {s t : List Reservation}
    {r0 r2 : Reservation}
    (hI : Inv ⟨cars, s ++ r0 :: t⟩)
    (hact0 : isActive r0 = true)
    (hid2 : r2.id = r0.id) (hcar2 : r2.car_id = r0.car_id)
    (htt2 : r2.type_transaction = r0.type_transaction)
    (hcase :
      (r2.statut = "confirmee" ∧ cars2 = cars) ∨
      ((r2.statut = "annulee" ∨
          (r2.statut = "terminee" ∧ r0.type_transaction = "location")) ∧
        (cars2 = setCarAvail cars r0.car_id "disponible" ∨
         (cars2 = cars ∧ ∀ c ∈ cars, c.id ≠ r0.car_id))) ∨
      (r2.statut = "terminee" ∧ r0.type_transaction = "vente" ∧ cars2 = cars)) :
    Inv ⟨cars2, s ++ r2 :: t⟩ := by
  obtain ⟨hsany, htany, hcs0⟩ := parts_facts hI hact0
  have hterm0 : (r0.statut == "terminee") = false := by
    rcases active_statut hact0 with h | h <;> simp [h]
  have hns3 : r2.statut = "confirmee" ∨ r2.statut = "annulee" ∨ r2.statut = "terminee" := by
    rcases hcase with ⟨h, -⟩ | ⟨h, -⟩ | ⟨h, -, -⟩
    · exact Or.inl h
    · rcases h with h | ⟨h, -⟩
      · exact Or.inr (Or.inl h)
      · exact Or.inr (Or.inr h)
    · exact Or.inr (Or.inr h)
  have hcs0parts := hcs0
  rw [hasCompletedSale_parts] at hcs0parts
  obtain ⟨hcsS, -, hcsT⟩ := or3_false hcs0parts
  have hOldA : ∀ cid tt', (r0.car_id == cid) = false →
      hasActive (s ++ r2 :: t) cid tt' = hasActive (s ++ r0 :: t) cid tt' := by
    intro cid tt' hbf
    rw [hasActive_parts, hasActive_parts, hcar2, hbf]
    simp
  have hOldCS : ∀ cid, (r0.car_id == cid) = false →
      hasCompletedSale (s ++ r2 :: t) cid = hasCompletedSale (s ++ r0 :: t) cid := by
    intro cid hbf
    rw [hasCompletedSale_parts, hasCompletedSale_parts, hcar2, hbf]
    simp
  constructor
  · rcases hcase with ⟨-, rfl⟩ | ⟨-, hc⟩ | ⟨-, -, rfl⟩
    · exact hI.carIds
    · rcases hc with rfl | ⟨rfl, -⟩
      · rw [setCarAvail_map_id]; exact hI.carIds
      · exact hI.carIds
    · exact hI.carIds
  · have h := hI.resIds
    simp only [List.map_append, List.map_cons, hid2] at h ⊢
    exact h
  · intro r hr
    rcases List.mem_append.mp hr with h | h
    · exact hI.statutWf r (List.mem_append_left _ h)
    · rcases List.mem_cons.mp h with rfl | h2
      · rcases hns3 with h | h | h <;> simp [h]
      · exact hI.statutWf r (List.mem_append_right _ (List.mem_cons_of_mem _ h2))
  · intro r hr
    rcases List.mem_append.mp hr with h | h
    · exact hI.ttWf r (List.mem_append_left _ h)
    · rcases List.mem_cons.mp h with rfl | h2
      · rw [htt2]
        exact hI.ttWf r0 (List.mem_append_right _ (List.mem_cons_self _ _))
      · exact hI.ttWf r (List.mem_append_right _ (List.mem_cons_of_mem _ h2))
  · intro cid
    have hold := hI.atMostOne cid
    rw [activeCount_parts] at hold
    rw [activeCount_parts]
    have hmono : (if (r2.car_id == cid && isActive r2) = true then 1 else 0) ≤
        (if (r0.car_id == cid && isActive r0) = true then (1 : Nat) else 0) := by
      by_cases h : (r2.car_id == cid && isActive r2) = true
      · rw [if_pos h]
        rw [hcar2] at h
        have h2 : (r0.car_id == cid && isActive r0) = true := by
          simp only [Bool.and_eq_true] at h ⊢
          exact ⟨h.1, hact0⟩
        rw [if_pos h2]
      · rw [if_neg h]
        exact Nat.zero_le _
    omega
  · intro cid hcs'
    rw [hasCompletedSale_parts, hcar2, htt2] at hcs'
    rw [hasActiveAny_parts, hcar2]
    by_cases hb : (r0.car_id == cid) = true
    · have hcideq : r0.car_id = cid := by simpa using hb
      rcases hns3 with hstv | hstv | hstv
      · exfalso
        rw [← hcideq] at hcs'
        simp [hstv, hcsS, hcsT] at hcs'
      · have hact2 : isActive r2 = false := by simp [isActive, hstv]
        rw [← hcideq]
        simp [hsany, htany, hact2]
      · have hact2 : isActive r2 = false := by simp [isActive, hstv]
        rw [← hcideq]
        simp [hsany, htany, hact2]
    · have hbf : (r0.car_id == cid) = false := by simpa using hb
      have hCSold : hasCompletedSale (s ++ r0 :: t) cid = true := by
        rw [hasCompletedSale_parts]
        rw [hbf] at hcs'
        simp only [Bool.false_and, Bool.false_or] at hcs'
        simp only [hbf, Bool.false_and, Bool.false_or]
        exact hcs'
      have hfr := hI.saleFreeze cid hCSold
      rw [hasActiveAny_parts] at hfr
      obtain ⟨ha1, -, ha3⟩ := or3_false hfr
      simp [hbf, ha1, ha3]
  · rcases hcase with ⟨hstv, rfl⟩ | ⟨hnsv, hc⟩ | ⟨hstv, httv, rfl⟩
    · intro c hc2
      obtain ⟨h1, h2, h3⟩ := hI.avail c hc2
      have hact2 : isActive r2 = true := by simp [isActive, hstv]
      have hcst2 : (r2.statut == "terminee") = false := by simp [hstv]
      refine ⟨?_, ?_, h3⟩
      · rw [hasActive_parts]
        rw [hasActive_parts] at h1
        simpa [hcar2, htt2, hact2, hact0] using h1
      · rw [hasActive_parts, hasCompletedSale_parts]
        rw [hasActive_parts, hasCompletedSale_parts] at h2
        simpa [hcar2, htt2, hact2, hact0, hcst2, hterm0] using h2
    · have hact2 : isActive r2 = false := by
        rcases hnsv with h | ⟨h, -⟩ <;> simp [isActive, h]
      have hcsp2 : ∀ cid, (r2.car_id == cid && r2.statut == "terminee" &&
          r2.type_transaction == "vente") = false := by
        intro cid
        rcases hnsv with h | ⟨h, htl⟩
        · simp [h]
        · rw [htt2, htl]
          simp
      rcases hc with rfl | ⟨rfl, hdang⟩
      · intro c' hc'
        obtain ⟨c, hcm, rfl⟩ := List.mem_map.mp hc'
        by_cases hcc : c.id = r0.car_id
        · rw [if_pos (by simpa using hcc)]
          refine ⟨?_, ?_, by simp⟩
          · show ("disponible" : String) = "loue" ↔ _
            rw [show ({ c with disponibilite := "disponible" } : Car).id = c.id from rfl]
            rw [hasActive_parts, hcar2, hcc]
            simp [hact2, hasActive_false_of_anyFalse hsany,
              hasActive_false_of_anyFalse htany]
          · show ("disponible" : String) = "vendu" ↔ _
            rw [show ({ c with disponibilite := "disponible" } : Car).id = c.id from rfl]
            rw [hasActive_parts, hasCompletedSale_parts, hcar2, hcc]
            simp only [hact2, hcsS, hcsT, hasActive_false_of_anyFalse hsany,
              hasActive_false_of_anyFalse htany, Bool.and_false, Bool.false_and,
              Bool.and_true, Bool.false_or, Bool.or_false]
            simp
            intro hterm hvente
            rcases hnsv with h | ⟨h, htl⟩
            · rw [h] at hterm
              exact absurd hterm (by decide)
            · rw [htt2, htl] at hvente
              exact absurd hvente (by decide)
        · rw [if_neg (by simpa using hcc)]
          obtain ⟨h1, h2, h3⟩ := hI.avail c hcm
          have hbf : (r0.car_id == c.id) = false := by
            rw [beq_eq_false_iff_ne]
            exact fun h => hcc h.symm
          refine ⟨?_, ?_, h3⟩
          · rw [hOldA c.id _ hbf]
            exact h1
          · rw [hOldA c.id _ hbf, hOldCS c.id hbf]
            exact h2
      · intro c hc2
        obtain ⟨h1, h2, h3⟩ := hI.avail c hc2
        have hbf : (r0.car_id == c.id) = false := by
          rw [beq_eq_false_iff_ne]
          exact fun h => hdang c hc2 h.symm
        refine ⟨?_, ?_, h3⟩
        · rw [hOldA c.id _ hbf]
          exact h1
        · rw [hOldA c.id _ hbf, hOldCS c.id hbf]
          exact h2
    · intro c hc2
      obtain ⟨h1, h2, h3⟩ := hI.avail c hc2
      have hact2 : isActive r2 = false := by simp [isActive, hstv]
      have hcst2 : (r2.statut == "terminee") = true := by simp [hstv]
      have httv2 : (r2.type_transaction == "vente") = true := by
        simp [htt2, httv]
      by_cases hcc : c.id = r0.car_id
      · have hvend : c.disponibilite = "vendu" := by
          apply h2.mpr
          left
          rw [hasActive_parts, hcc]
          simp [hact0, httv]
        refine ⟨?_, ?_, h3⟩
        · rw [hvend, hasActive_parts, hcar2, hcc]
          simp [hact2, hasActive_false_of_anyFalse hsany,
            hasActive_false_of_anyFalse htany]
        · rw [hvend, hasActive_parts, hasCompletedSale_parts, hcar2, hcc]
          simp [hcst2, httv2]
      · have hbf : (r0.car_id == c.id) = false := by
          rw [beq_eq_false_iff_ne]
          exact fun h => hcc h.symm
        refine ⟨?_, ?_, h3⟩
        · rw [hOldA c.id _ hbf]
          exact h1
        · rw [hOldA c.id _ hbf, hOldCS c.id hbf]
          exact h2

theorem Inv.transition_pres {db : DB} (hI : Inv db) (rid : Nat) (ns role : String)
    (ck : Bool) (db2 : DB) (rr : Reservation)
    (hok : update_reservation_status db rid ns role ck = .ok (db2, rr)) : Inv db2 := by
  unfold update_reservation_status at hok
  split at hok
  · exact Except.noConfusion hok
  · cases hfr : findReservation db rid with
    | none => rw [hfr] at hok; exact Except.noConfusion hok
    | some r0 =>
      rw [hfr] at hok
      simp only [] at hok
      split at hok
      · exact Except.noConfusion hok
      next hmemtrans =>
      have hedge : EdgeOk r0.statut ns :=
        (mem_valid_transitions r0.statut ns).mp (not_not.mp hmemtrans)
      have hact0 : isActive r0 = true := by
        rcases hedge with ⟨h, -⟩ | ⟨h, -⟩ <;> simp [isActive, h]
      obtain ⟨hmem, hid⟩ := findReservation_some hfr
      have hI' : Inv ⟨db.cars, db.reservations⟩ := hI
      obtain ⟨s, t, hsplit, hs, ht⟩ :=
        split_of_mem_nodup Reservation.id db.reservations r0 hmem hI.resIds
      have hsetres : setRes db.reservations rid { r0 with statut := ns } =
          s ++ { r0 with statut := ns } :: t := by
        rw [hsplit, ← hid]
        exact setRes_split s t r0 _ hs ht
      rw [hsplit] at hI'
      by_cases hrst : resetsCar ns r0.type_transaction
      · rw [if_pos hrst] at hok
        cases hfc : findCarAny db r0.car_id with
        | none => rw [hfc] at hok; exact Except.noConfusion hok
        | some car =>
          rw [hfc] at hok
          simp only [] at hok
          split at hok
          next hck =>
            rw [Except.ok.injEq, Prod.mk.injEq] at hok
            obtain ⟨hdb2, -⟩ := hok
            rw [← hdb2, hsetres]
            refine Inv.replace_core hI' hact0 rfl rfl rfl ?_
            have hrs := (resetsCar_iff ns r0.type_transaction).mp hrst
            refine Or.inr (Or.inl ⟨?_, Or.inl rfl⟩)
            rcases hrs with h | ⟨h1, h2⟩
            · exact Or.inl h
            · exact Or.inr ⟨h1, h2⟩
          next hck => exact Except.noConfusion hok
      · rw [if_neg hrst] at hok
        split at hok
        next hck =>
          rw [Except.ok.injEq, Prod.mk.injEq] at hok
          obtain ⟨hdb2, -⟩ := hok
          rw [← hdb2, hsetres]
          refine Inv.replace_core hI' hact0 rfl rfl rfl ?_
          rcases hedge with ⟨-, hns⟩ | ⟨-, hns⟩
          · rcases hns with h | h
            · exact Or.inl ⟨h, rfl⟩
            · exact absurd ((resetsCar_iff ns r0.type_transaction).mpr (Or.inl h)) hrst
          · rcases hns with h | h
            · rcases hI.ttWf r0 hmem with htt | htt
              · exact Or.inr (Or.inr ⟨h, htt, rfl⟩)
              · exact absurd ((resetsCar_iff ns r0.type_transaction).mpr
                  (Or.inr ⟨h, htt⟩)) hrst
            · exact absurd ((resetsCar_iff ns r0.type_transaction).mpr (Or.inl h)) hrst
        next hck => exact Except.noConfusion hok

theorem Inv.cancel_pres {db : DB} (hI : Inv db) (rid uid : Nat) (role : String)
    (ck : Bool) (db2 : DB)
    (hok : cancel_reservation db rid uid role ck = .ok db2) : Inv db2 := by
  unfold cancel_reservation at hok
  cases hfr : findReservation db rid with
  | none => rw [hfr] at hok; exact Except.noConfusion hok
  | some r0 =>
    rw [hfr] at hok
    simp only [] at hok
    split at hok
    · exact Except.noConfusion hok
    · split at hok
      · exact Except.noConfusion hok
      next hterm =>
      obtain ⟨hmem, hid⟩ := findReservation_some hfr
      have hact0 : isActive r0 = true := by
        rcases hI.statutWf r0 hmem with h | h | h | h
        · simp [isActive, h]
        · simp [isActive, h]
        · exact absurd (Or.inl h) hterm
        · exact absurd (Or.inr h) hterm
      have hI' : Inv ⟨db.cars, db.reservations⟩ := hI
      obtain ⟨s, t, hsplit, hs, ht⟩ :=
        split_of_mem_nodup Reservation.id db.reservations r0 hmem hI.resIds
      have hsetres : setRes db.reservations rid { r0 with statut := "annulee" } =
          s ++ { r0 with statut := "annulee" } :: t := by
        rw [hsplit, ← hid]
        exact setRes_split s t r0 _ hs ht
      rw [hsplit] at hI'
      split at hok
      next hck =>
        rw [Except.ok.injEq] at hok
        cases hfc : findCarAny db r0.car_id with
        | some car =>
          rw [hfc] at hok
          simp only [] at hok
          rw [← hok, hsetres]
          exact Inv.replace_core hI' hact0 rfl rfl rfl
            (Or.inr (Or.inl ⟨Or.inl rfl, Or.inl rfl⟩))
        | none =>
          rw [hfc] at hok
          simp only [] at hok
          have hdang : ∀ c ∈ db.cars, c.id ≠ r0.car_id := by
            intro c hc h
            have h2 := List.find?_eq_none.mp hfc c hc
            simp [h] at h2
          rw [← hok, hsetres]
          exact Inv.replace_core hI' hact0 rfl rfl rfl
            (Or.inr (Or.inl ⟨Or.inl rfl, Or.inr ⟨rfl, hdang⟩⟩))
      next hck => exact Except.noConfusion hok

end CarResa

namespace CarResa

theorem Inv.step {db : DB} (hI : Inv db) (op : Op) (hwf : op.Wf)
    (hnu : op.isUpd = false) : Inv (Op.apply db op) := by
  cases op with
  | create data uid now ck =>
    simp only [Op.apply]
    cases hres : create_reservation db data uid now ck with
    | ok out =>
      obtain ⟨db2, res⟩ := out
      exact Inv.create_pres hI data uid now ck hwf db2 res hres
    | error e => exact hI
  | transition rid ns role ck =>
    simp only [Op.apply]
    cases hres : update_reservation_status db rid ns role ck with
    | ok out =>
      obtain ⟨db2, rr⟩ := out
      exact Inv.transition_pres hI rid ns role ck db2 rr hres
    | error e => exact hI
  | update rid u uid role now ck => simp [Op.isUpd] at hnu
  | cancel rid uid role ck =>
    simp only [Op.apply]
    cases hres : cancel_reservation db rid uid role ck with
    | ok db2 => exact Inv.cancel_pres hI rid uid role ck db2 hres
    | error e => exact hI

theorem Inv.runOps_pres {db : DB} (hI : Inv db) (ops : List Op)
    (hwf : ∀ op ∈ ops, op.Wf) (hnu : ∀ op ∈ ops, op.isUpd = false) :
    Inv (runOps db ops) := by
  induction ops generalizing db with
  | nil => exact hI
  | cons op ops ih =>
    exact ih (Inv.step hI op (hwf op (by simp)) (hnu op (by simp)))
      (fun o ho => hwf o (by simp [ho])) (fun o ho => hnu o (by simp [ho]))

theorem Inv.init (cars0 : List Car) (hnd : (cars0.map Car.id).Nodup)
    (hav : ∀ c ∈ cars0, c.disponibilite = "disponible") : Inv ⟨cars0, []⟩ := by
  constructor
  · exact hnd
  · simp
  · intro r hr; cases hr
  · intro r hr; cases hr
  · intro cid; simp [activeCount]
  · intro cid h; simp [hasCompletedSale] at h
  · intro c hc
    refine ⟨?_, ?_, Or.inl (hav c hc)⟩
    · simp [hasActive, hav c hc]
    · simp [hasActive, hasCompletedSale, hav c hc]

/-- C1 (amended): after any sequence of `create`, `transition_status` and
`cancel` operations (well-formed at the HTTP layer; `update` excluded) from
an initial state of available cars with distinct ids and no reservations:
every car's availability is `disponible`, `loue` or `vendu`; it is `loue`
iff some pending/confirmed rental references the car; it is `vendu` iff
some pending/confirmed sale or some completed sale references the car; and
when no such reservation exists it is `disponible`. -/
theorem availability_consistency_amended (cars0 : List Car) (ops : List Op)
    (hnd : (cars0.map Car.id).Nodup)
    (hav : ∀ c ∈ cars0, c.disponibilite = "disponible")
    (hwf : ∀ op ∈ ops, op.Wf)
    (hnu : ∀ op ∈ ops, op.isUpd = false) :
    ∀ c ∈ (runOps ⟨cars0, []⟩ ops).cars,
      (c.disponibilite = "disponible" ∨ c.disponibilite = "loue" ∨
       c.disponibilite = "vendu") ∧
      (c.disponibilite = "loue" ↔
        hasActive (runOps ⟨cars0, []⟩ ops).reservations c.id "location" = true) ∧
      (c.disponibilite = "vendu" ↔
        (hasActive (runOps ⟨cars0, []⟩ ops).reservations c.id "vente" = true ∨
         hasCompletedSale (runOps ⟨cars0, []⟩ ops).reservations c.id = true)) ∧
      ((hasActiveAny (runOps ⟨cars0, []⟩ ops).reservations c.id = false ∧
        hasCompletedSale (runOps ⟨cars0, []⟩ ops).reservations c.id = false) →
        c.disponibilite = "disponible") := by
  have hI := Inv.runOps_pres (Inv.init cars0 hnd hav) ops hwf hnu
  intro c hc
  obtain ⟨h1, h2, h3⟩ := hI.avail c hc
  refine ⟨h3, h1, h2, ?_⟩
  rintro ⟨ha, hcs⟩
  rcases h3 with h | h | h
  · exact h
  · exfalso
    have hx := hasActive_imp_any _ _ _ (h1.mp h)
    rw [ha] at hx
    exact Bool.noConfusion hx
  · exfalso
    rcases h2.mp h with hx | hx
    · have hy := hasActive_imp_any _ _ _ hx
      rw [ha] at hy
      exact Bool.noConfusion hy
    · rw [hcs] at hx
      exact Bool.noConfusion hx

theorem availability_consistency_amended_witness :
    (wCarVendu.disponibilite = "disponible" ∨ wCarVendu.disponibilite = "loue" ∨
     wCarVendu.disponibilite = "vendu") ∧
    (wCarVendu.disponibilite = "loue" ↔
      hasActive (runOps ⟨[wCar], []⟩ cxOpsSale).reservations wCarVendu.id
        "location" = true) ∧
    (wCarVendu.disponibilite = "vendu" ↔
      (hasActive (runOps ⟨[wCar], []⟩ cxOpsSale).reservations wCarVendu.id
          "vente" = true ∨
       hasCompletedSale (runOps ⟨[wCar], []⟩ cxOpsSale).reservations
          wCarVendu.id = true)) ∧
    ((hasActiveAny (runOps ⟨[wCar], []⟩ cxOpsSale).reservations
        wCarVendu.id = false ∧
      hasCompletedSale (runOps ⟨[wCar], []⟩ cxOpsSale).reservations
        wCarVendu.id = false) →
      wCarVendu.disponibilite = "disponible") :=
  availability_consistency_amended [wCar] cxOpsSale (by decide) (by decide)
    (by decide) (by decide) wCarVendu (by decide)

/-- C1: the claim as stated is false on the code at two concrete runs:
completing a confirmed sale leaves the car `vendu` although no reservation
on it has status pending/confirmed (the claim then requires `disponible`);
and editing a pending sale into a rental via `update` leaves the car
`vendu` although the only pending/confirmed reservation is a rental (the
claim then requires `loue`, with no active sale to justify `vendu`). -/
theorem availability_consistency_counterexample :
    ((findCarAny (runOps cxDB0 cxOpsSale) 1).map Car.disponibilite =
        some "vendu" ∧
     hasActiveAny (runOps cxDB0 cxOpsSale).reservations 1 = false) ∧
    ((findCarAny (runOps cxDB0 cxOpsUpd) 1).map Car.disponibilite =
        some "vendu" ∧
     hasActive (runOps cxDB0 cxOpsUpd).reservations 1 "vente" = false ∧
     hasActive (runOps cxDB0 cxOpsUpd).reservations 1 "location" = true) := by
  decide

end CarResa
